import Mathlib

/-!
Verification of the client-side synchronization layer of the `file_admin`
dashboard (a Next.js admin UI over a file-serving REST backend).

The definitions below are a shallow embedding of the TypeScript source:

* `getImageUrl`, `ApiClient.getGames`, `ApiClient.getAdditionalTags`,
  `ApiClient.getUsers`, `ApiClient.login`, the axios response interceptor —
  from `lib/api.ts` (the snapshot kept under `.history/`);
* `handleSubmit`, `uploadImage`, `buildGameData`, `pruneSelectedTags` —
  from `components/Games/GameForm.tsx`;
* `filterGames` — from `app/dashboard/games/page.tsx`;
* `filterUsers` — from `app/dashboard/users/page.tsx`;
* `handleCreateTag` — from `app/dashboard/tags/page.tsx`.

JavaScript strings are modelled as Lean `String`s, with the JS operations
(`startsWith`, `includes`, `toLowerCase`, `trim`, `x || y`, one-shot
`replace(/\/$/, "")`) re-implemented over `List Char` so that every
definition is executable and kernel-reducible.  Nullable values are
`Option`s; wire-level tag references that may be `null`/`undefined` are the
three-valued `JsStr`.  Network effects are made explicit: every fallible
HTTP call is a parameter describing the response the collaborator backend
would give, and `handleSubmit` returns the ordered trace of API calls it
issues.
-/

/- ### JavaScript string primitives -/

/-- Check whether `needle` occurs as a contiguous run inside `hay`
(JS `String.prototype.includes`). -/
def listIncludes (needle : List Char) : List Char → Bool
  | [] => needle.isEmpty
  | c :: rest => needle.isPrefixOf (c :: rest) || listIncludes needle rest

/-- JS `s.includes(sub)`. -/
def jsIncludes (s sub : String) : Bool := listIncludes sub.toList s.toList

/-- JS `s.toLowerCase()` (character-wise lowering, which is what matters for
the ASCII text the dashboard filters on). -/
def jsToLower (s : String) : String := ⟨s.toList.map Char.toLower⟩

/-- JS `s.trim()`: drop whitespace from both ends. -/
def jsTrim (s : String) : String :=
  ⟨((s.toList.dropWhile Char.isWhitespace).reverse.dropWhile Char.isWhitespace).reverse⟩

/-- JS `s.startsWith(pre)`. -/
def jsStartsWith (s pre : String) : Bool := pre.toList.isPrefixOf s.toList

/-- JS `base.replace(/\/$/, "")`: remove a single trailing slash when present. -/
def stripTrailingSlash (base : String) : String :=
  match base.toList.reverse with
  | '/' :: rest => ⟨rest.reverse⟩
  | _ => base

/-- JS `a || b` on two nullable strings: `a` when it is present and
non-empty (truthy), otherwise `b`. -/
def jsOrStr : Option String → Option String → Option String
  | some s, b => if s = "" then b else some s
  | none, b => b

/- ### Image reference resolution (`getImageUrl` in `lib/api.ts`) -/

/-- Resolver for image references, parametrised by the configured
`API_BASE_URL`.  Source: `lib/api.ts` `getImageUrl` — empty paths yield
`""` (`if (!imagePath) return ""`), absolute `http(s)://` URLs pass through,
paths starting with `/` are appended to the base URL with its trailing
slash stripped, anything else resolves under `<base>/uploads/<name>`. -/
def getImageUrl (apiBaseUrl imagePath : String) : String :=
  if imagePath = "" then ""
  else if jsStartsWith imagePath "http://" || jsStartsWith imagePath "https://" then
    imagePath
  else if jsStartsWith imagePath "/" then
    stripTrailingSlash apiBaseUrl ++ imagePath
  else
    stripTrailingSlash apiBaseUrl ++ "/uploads/" ++ imagePath

/- ### Wire-level data model -/

/-- A tag reference as it appears on the wire inside `additionalTags`:
a string id, `null`, or `undefined` (the collaborator backend returns
sparse/denormalized arrays). -/
inductive JsStr where
  | str (s : String)
  | null
  | undef
deriving DecidableEq

/-- Predicate for the entries the client strips: `null` and `undefined`. -/
def JsStr.isNullish : JsStr → Bool
  | .null => true
  | .undef => true
  | .str _ => false

/-- A catalog entry ("game") as received on the wire and as held in list
state.  `_id`/`id` are both optional on the wire; `additionalTags` may be
absent altogether (`game.additionalTags || []` in the source). -/
structure GameWire where
  _id : Option String
  id : Option String
  title : String
  description : String
  path : String
  imageUrl : String
  mainTag : String
  additionalTags : Option (List JsStr)
deriving DecidableEq

/-- A tag record on the wire. -/
structure TagWire where
  _id : Option String
  id : Option String
  name : String
  belongsTo : Option String
deriving DecidableEq

/-- A user record on the wire. -/
structure UserWire where
  _id : Option String
  id : Option String
  username : Option String
  email : Option String
  isSubscribed : Bool
deriving DecidableEq

/-- The body of a list response: either a bare JSON array or the envelope
`{success, data}` (whose `data` may itself be absent). -/
inductive ListResp (α : Type) where
  | arr (items : List α)
  | env (success : Bool) (data : Option (List α))
deriving DecidableEq

/-- Discriminator: is this response body a bare array
(JS `Array.isArray`)? -/
def ListResp.isArr {α : Type} : ListResp α → Bool
  | .arr _ => true
  | .env _ _ => false

/-- Call-site normalization used by every page:
`Array.isArray(r) ? r : r.data || []`. -/
def unwrapList {α : Type} : ListResp α → List α
  | .arr items => items
  | .env _ data => data.getD []

/-- Per-game normalization performed by `ApiClient.getGames`:
`{...game, id: game._id || game.id, additionalTags: (game.additionalTags
|| []).filter(tag => tag !== null && tag !== undefined)}`. -/
def normalizeGame (game : GameWire) : GameWire :=
  { game with
    id := jsOrStr game._id game.id
    additionalTags :=
      some ((game.additionalTags.getD []).filter (fun tag => !tag.isNullish)) }

/-- Per-tag normalization performed by `ApiClient.getAdditionalTags`:
`{...tag, id: tag._id || tag.id}`. -/
def normalizeTag (tag : TagWire) : TagWire :=
  { tag with id := jsOrStr tag._id tag.id }

/-- Per-user normalization performed by `ApiClient.getUsers`:
`{...user, id: user._id || user.id}`. -/
def normalizeUser (user : UserWire) : UserWire :=
  { user with id := jsOrStr user._id user.id }

/-- Wrapper list operation `ApiClient.getGames`: when the response body is an array, map each game
through the id/tags normalization; otherwise return the body as is
(`return games` on the non-array branch of the source). -/
def ApiClient.getGames : ListResp GameWire → ListResp GameWire
  | .arr games => .arr (games.map normalizeGame)
  | .env s d => .env s d

/-- Wrapper list operation `ApiClient.getAdditionalTags`: same shape as `getGames`. -/
def ApiClient.getAdditionalTags : ListResp TagWire → ListResp TagWire
  | .arr tags => .arr (tags.map normalizeTag)
  | .env s d => .env s d

/-- Wrapper list operation `ApiClient.getUsers`: same shape as `getGames`. -/
def ApiClient.getUsers : ListResp UserWire → ListResp UserWire
  | .arr users => .arr (users.map normalizeUser)
  | .env s d => .env s d

/- ### HTTP client wrapper state and the 401 interceptor -/

/-- The browser-persisted client state the interceptor touches: the
`admin_token` cookie and `window.location.href`. -/
structure ClientState where
  admin_token : Option String
  locationHref : String
deriving DecidableEq

/-- The resource operations that all go through the single shared axios
instance of `ApiClient` (and hence through its interceptors). -/
inductive Operation where
  | listGames
  | createGame
  | updateGame
  | listTags
  | createTag
  | deleteTag
  | listUsers
  | setSubscription
  | uploadImage
deriving DecidableEq

/-- Endpoint each operation targets, from the `ApiClient` methods. -/
def endpointOf : Operation → String
  | .listGames => "/admin/games/game"
  | .createGame => "/admin/games/game"
  | .updateGame => "/admin/games/game"
  | .listTags => "/admin/games/additional_tags"
  | .createTag => "/admin/games/additional_tags"
  | .deleteTag => "/admin/games/additional_tags"
  | .listUsers => "/admin/user"
  | .setSubscription => "/admin/user/set_subscription"
  | .uploadImage => "/admin/games/upload/picture"

/-- Request interceptor: attach `Authorization: Bearer <token>` when a
token is persisted. -/
def authHeader (st : ClientState) : Option String :=
  match st.admin_token with
  | some token => some ("Bearer " ++ token)
  | none => none

/-- Error branch of the response interceptor: on status 401 clear the
persisted `admin_token` cookie and set `window.location.href = "/login"`;
any other error leaves the client state untouched. -/
def responseInterceptorOnError (st : ClientState) (status : Nat) : ClientState :=
  if status = 401 then { admin_token := none, locationHref := "/login" } else st

/-- The installed response interceptor: 2xx responses pass through
(`(response) => response`); every non-2xx status goes through the error
branch.  axios routes non-2xx statuses to the error handler by default. -/
def interceptResponse (st : ClientState) (status : Nat) : ClientState :=
  if 200 ≤ status ∧ status < 300 then st else responseInterceptorOnError st status

/-- One request issued by any `ApiClient` method: it targets the
operation's endpoint and its response runs through the shared
interceptor, whatever the operation was. -/
def performOperation (op : Operation) (st : ClientState) (status : Nat) :
    String × ClientState :=
  (endpointOf op, interceptResponse st status)

/-- Session flag derived from token presence
(`AuthContext`: `Cookies.get("admin_token")` non-null ⇒ authenticated). -/
def isAuthenticatedState (st : ClientState) : Bool := st.admin_token.isSome

/- ### Login endpoint probing (`ApiClient.login`) -/

/-- The fixed ordered candidate list hard-coded in `ApiClient.login`. -/
def loginEndpoints : List String :=
  ["/admin/auth/login", "/admin/login", "/auth/login", "/adminAuth/login", "/userAuth/login"]

/-- Sequential trial of candidate endpoints.  `resp e = some d` means the
POST to `e` resolves with data `d`; `none` means it rejects.  Returns the
endpoints actually tried, in order, and the data of the first success
(`none` when every candidate failed, modelling
`throw new Error("All login endpoints failed")`). -/
def tryEndpoints {α : Type} (resp : String → Option α) :
    List String → List String × Option α
  | [] => ([], none)
  | e :: rest =>
    match resp e with
    | some d => ([e], some d)
    | none =>
      let r := tryEndpoints resp rest
      (e :: r.1, r.2)

/-- Login method `ApiClient.login`, as the trial of the five hard-coded candidates. -/
def ApiClient.login {α : Type} (resp : String → Option α) :
    List String × Option α :=
  tryEndpoints resp loginEndpoints

/- ### Game mutation form (`GameForm.tsx`) -/

/-- The draft record held by the form (`formData` state). -/
structure GameFormData where
  title : String
  description : String
  path : String
  imageUrl : String
  mainTag : String
  additionalTags : List JsStr
  youtubeLink : String
  gameImages : List String
deriving DecidableEq

/-- The upload endpoint's response body. -/
structure UploadResponse where
  success : Bool
  url : Option String
deriving DecidableEq

/-- Result of `uploadImage`: the returned URL when
`response.success && response.url` is truthy, otherwise `none`
(modelling `throw new Error("Upload failed")`). -/
def uploadImage (resp : UploadResponse) : Option String :=
  match resp.url with
  | some u => if resp.success && !(u == "") then some u else none
  | none => none

/-- The payload assembled by `handleSubmit`:
`{...formData, imageUrl, additionalTags: formData.additionalTags.filter(tag
=> tag !== null && tag !== undefined)}`. -/
def buildGameData (fd : GameFormData) (imageUrl : String) : GameFormData :=
  { fd with
    imageUrl := imageUrl
    additionalTags := fd.additionalTags.filter (fun tag => !tag.isNullish) }

/-- An API call issued by the form, in the order it is issued.  Toast
notifications are pure UI and are not part of the trace. -/
inductive ApiCall where
  | upload (fileName : String)
  | createGame (payload : GameFormData)
  | updateGame (id : Option String) (payload : GameFormData)
deriving DecidableEq

/-- The create-or-update call: `updateGame({id: (game as any).id || (game
as any)._id, ...gameData})` when editing, `createGame(gameData)` when
creating. -/
def saveCall (game : Option GameWire) (payload : GameFormData) : ApiCall :=
  match game with
  | some g => .updateGame (jsOrStr g.id g._id) payload
  | none => .createGame payload

/-- Trace of the API calls issued by one run of `handleSubmit`.
`selectedFile` is the pending local file (by name) when one was chosen;
`uploadResp` describes how the upload endpoint would answer.  When a file
is selected the upload is awaited first; if it throws, the catch block
ends the submit with no create/update call; otherwise its returned URL is
merged into the draft and the create/update call follows. -/
def handleSubmit (game : Option GameWire) (fd : GameFormData)
    (selectedFile : Option String) (uploadResp : UploadResponse) : List ApiCall :=
  match selectedFile with
  | some file =>
    match uploadImage uploadResp with
    | none => [ApiCall.upload file]
    | some uploadedUrl =>
      [ApiCall.upload file, saveCall game (buildGameData fd uploadedUrl)]
  | none => [saveCall game (buildGameData fd fd.imageUrl)]

/- ### Tag pruning effect (`GameForm.tsx` useEffect on availableTags/game) -/

/-- The effect body that cleans invalid tag ids: when both the available
tag collection and the current selection are non-empty, it keeps only
selections whose id occurs among `availableTags.map(tag => tag._id)` —
but applies the pruned list only when no game is being edited and some
selection is actually invalid. -/
def pruneSelectedTags (availableTags : List TagWire) (game : Option GameWire)
    (selectedTags : List String) : List String :=
  if 0 < availableTags.length ∧ 0 < selectedTags.length then
    let validTagIds := availableTags.map (fun tag => tag._id)
    let validSelectedTags :=
      selectedTags.filter (fun tagId => validTagIds.contains (some tagId))
    if game.isNone ∧ validSelectedTags.length ≠ selectedTags.length then
      validSelectedTags
    else selectedTags
  else selectedTags

/- ### List filtering (`filterGames`, `filterUsers`) -/

/-- Search predicate of `filterGames`: case-insensitive substring match on
title or description. -/
def gameSearchMatch (searchTerm : String) (game : GameWire) : Bool :=
  jsIncludes (jsToLower game.title) (jsToLower searchTerm) ||
  jsIncludes (jsToLower game.description) (jsToLower searchTerm)

/-- Function `filterGames` from the games page: apply the search filter when the
search term is non-empty (JS truthiness), then the main-tag filter when
the selector is not `"all"`. -/
def filterGames (games : List GameWire) (searchTerm selectedMainTag : String) :
    List GameWire :=
  let afterSearch :=
    if searchTerm = "" then games else games.filter (gameSearchMatch searchTerm)
  if selectedMainTag = "all" then afterSearch
  else afterSearch.filter (fun game => game.mainTag == selectedMainTag)

/-- The combined criterion `filterGames` implements, as one predicate. -/
def gameMatches (searchTerm selectedMainTag : String) (game : GameWire) : Bool :=
  (searchTerm == "" || gameSearchMatch searchTerm game) &&
  (selectedMainTag == "all" || game.mainTag == selectedMainTag)

/-- The user record the users page holds (`User` in `lib/types.ts`):
`_id` required, `username`/`email` optional. -/
structure UserRec where
  _id : String
  username : Option String
  email : Option String
  isSubscribed : Bool
deriving DecidableEq

/-- Search predicate of `filterUsers`: `(user.username &&
user.username.toLowerCase().includes(t)) || (user.email && ...) ||
user._id.toLowerCase().includes(t)`. -/
def userSearchMatch (searchTerm : String) (user : UserRec) : Bool :=
  (match user.username with
   | some name => !(name == "") && jsIncludes (jsToLower name) (jsToLower searchTerm)
   | none => false) ||
  (match user.email with
   | some mail => !(mail == "") && jsIncludes (jsToLower mail) (jsToLower searchTerm)
   | none => false) ||
  jsIncludes (jsToLower user._id) (jsToLower searchTerm)

/-- Subscription-selector predicate of `filterUsers`. -/
def userSubscriptionMatch (filterSubscription : String) (user : UserRec) : Bool :=
  if filterSubscription == "subscribed" then user.isSubscribed else !user.isSubscribed

/-- Function `filterUsers` from the users page. -/
def filterUsers (users : List UserRec) (searchTerm filterSubscription : String) :
    List UserRec :=
  let afterSearch :=
    if searchTerm = "" then users else users.filter (userSearchMatch searchTerm)
  if filterSubscription = "all" then afterSearch
  else afterSearch.filter (userSubscriptionMatch filterSubscription)

/-- The combined criterion `filterUsers` implements, as one predicate. -/
def userMatches (searchTerm filterSubscription : String) (user : UserRec) : Bool :=
  (searchTerm == "" || userSearchMatch searchTerm user) &&
  (filterSubscription == "all" || userSubscriptionMatch filterSubscription user)

/- ### Tag creation (`TagsPage.handleCreateTag`) -/

/-- Body of a create-tag request. -/
structure CreateTagBody where
  name : String
  belongsTo : String
deriving DecidableEq

/-- Modelled from the spec: the current `lib/api.ts` is not under `src/`
(only a stale `.history` snapshot of an earlier one-argument version and
the two-argument caller `handleCreateTag` are), and the spec's
external-interface table says POST `/admin/games/additional_tags` creates
a tag from (name, owning-category); so `createAdditionalTag` posts a body
carrying both the name and the owning-category classifier. -/
def createAdditionalTag (name belongsTo : String) : CreateTagBody :=
  { name := name, belongsTo := belongsTo }

/-- Function `handleCreateTag` from the tags page: bail out when the trimmed name
is empty (`if (!newTagName.trim()) return`), otherwise issue
`createAdditionalTag(newTagName.trim(), newTagBelongsTo)`. -/
def handleCreateTag (newTagName newTagBelongsTo : String) : Option CreateTagBody :=
  if jsTrim newTagName = "" then none
  else some (createAdditionalTag (jsTrim newTagName) newTagBelongsTo)

/- ### Concrete sample records shared by witnesses and counterexamples -/

/-- A concrete wire game whose `additionalTags` contains a `null` entry. -/
def sampleGameWire : GameWire :=
  { _id := some "g1", id := none, title := "T", description := "D", path := "/p"
    imageUrl := "i.png", mainTag := "Game"
    additionalTags := some [JsStr.str "t1", JsStr.null] }

/-- A concrete draft whose `additionalTags` holds the spec's example
`["t1", null, "t2", undefined]`. -/
def sampleDraft : GameFormData :=
  { title := "T", description := "D", path := "/p", imageUrl := "old.png"
    mainTag := "Game"
    additionalTags := [JsStr.str "t1", JsStr.null, JsStr.str "t2", JsStr.undef]
    youtubeLink := "", gameImages := [] }

/-- A concrete successful upload response. -/
def sampleUploadResp : UploadResponse :=
  { success := true, url := some "http://h:9000/uploads/new.png" }

/-- A concrete available tag. -/
def sampleTagWire : TagWire :=
  { _id := some "t1", id := none, name := "RPG", belongsTo := some "Game" }

/-- A login oracle under which the first two candidates fail and the third
succeeds. -/
def sampleLoginOracle : String → Option Nat :=
  fun e => if e = "/auth/login" then some 7 else none

/- ### C1 and C10: image reference resolution -/

/-- C1 (counterexample): the empty string starts with none of the three
recognized forms, so the claim's third branch demands
`<base>/uploads/` + `""`; the code returns `""` instead. -/
theorem C1_counterexample :
    jsStartsWith "" "http://" = false ∧ jsStartsWith "" "https://" = false ∧
    jsStartsWith "" "/" = false ∧
    getImageUrl "http://h:9000/" "" ≠
      stripTrailingSlash "http://h:9000/" ++ "/uploads/" ++ "" := by
  decide

/-- C1 (amended): for every non-empty path the three-branch rule holds
exactly as the claim states it — absolute `http(s)://` URLs pass through
unchanged, `/`-prefixed paths are appended to the base with its trailing
slash stripped, and any other non-empty string resolves under
`<base>/uploads/<name>`; the spec's three concrete examples hold.  (The
empty string, which the code maps to `""`, is the only exception.) -/
theorem C1_getImageUrl_amended (base p : String) (hp : p ≠ "") :
    (jsStartsWith p "http://" = true ∨ jsStartsWith p "https://" = true →
      getImageUrl base p = p) ∧
    (jsStartsWith p "http://" = false → jsStartsWith p "https://" = false →
      jsStartsWith p "/" = true →
      getImageUrl base p = stripTrailingSlash base ++ p) ∧
    (jsStartsWith p "http://" = false → jsStartsWith p "https://" = false →
      jsStartsWith p "/" = false →
      getImageUrl base p = stripTrailingSlash base ++ "/uploads/" ++ p) ∧
    getImageUrl base "https://x/y.png" = "https://x/y.png" ∧
    getImageUrl "http://h:9000/" "/uploads/a.png" = "http://h:9000/uploads/a.png" ∧
    getImageUrl "http://h:9000/" "a.png" = "http://h:9000/uploads/a.png" := by
  refine ⟨?_, ?_, ?_, rfl, by decide, by decide⟩
  · intro h
    rcases h with h | h <;> simp [getImageUrl, hp, h]
  · intro h1 h2 h3
    simp [getImageUrl, hp, h1, h2, h3]
  · intro h1 h2 h3
    simp [getImageUrl, hp, h1, h2, h3]

/-- C1 (witness): the amended theorem applied at base `"http://h:9000/"`
and path `"a.png"`. -/
theorem C1_getImageUrl_amended_witness :
    ("a.png" : String) ≠ "" ∧
    getImageUrl "http://h:9000/" "a.png" = "http://h:9000/uploads/a.png" :=
  ⟨by decide,
   (C1_getImageUrl_amended "http://h:9000/" "a.png" (by decide)).2.2.2.2.2⟩

/-- C10: `getImageUrl` maps the empty path to the empty string for every
base URL — it is neither passed through a recognized branch nor resolved
under `<base>/uploads/`. -/
theorem C10_getImageUrl_empty :
    (∀ base : String, getImageUrl base "" = "") ∧
    getImageUrl "http://h:9000/" "" ≠
      stripTrailingSlash "http://h:9000/" ++ "/uploads/" ++ "" := by
  exact ⟨fun base => rfl, by decide⟩

/- ### C2: upload strictly before create/update -/

/-- C2: whenever a new image file has been selected, `handleSubmit` awaits
the upload first — if the upload throws, the submit ends with no
create/update call at all; if it resolves with URL `u`, the trace is
exactly the upload followed by the create/update call, and the persisted
payload's `imageUrl` field is `u`, the URL the upload returned (not the
local file handle or any value the draft held before). -/
theorem C2_upload_before_save (game : Option GameWire) (fd : GameFormData)
    (file : String) (uploadResp : UploadResponse) :
    (uploadImage uploadResp = none →
      handleSubmit game fd (some file) uploadResp = [ApiCall.upload file]) ∧
    (∀ uploadedUrl, uploadImage uploadResp = some uploadedUrl →
      handleSubmit game fd (some file) uploadResp =
        [ApiCall.upload file, saveCall game (buildGameData fd uploadedUrl)] ∧
      (buildGameData fd uploadedUrl).imageUrl = uploadedUrl) := by
  refine ⟨fun h => ?_, fun u h => ⟨?_, rfl⟩⟩ <;> simp [handleSubmit, h]

/-- C2 (witness): a concrete successful upload produces the trace
`[upload, createGame]` with the uploaded URL in the payload. -/
theorem C2_upload_before_save_witness :
    uploadImage sampleUploadResp = some "http://h:9000/uploads/new.png" ∧
    handleSubmit none sampleDraft (some "new.png") sampleUploadResp =
      [ApiCall.upload "new.png",
       saveCall none (buildGameData sampleDraft "http://h:9000/uploads/new.png")] ∧
    (buildGameData sampleDraft "http://h:9000/uploads/new.png").imageUrl =
      "http://h:9000/uploads/new.png" :=
  ⟨by decide,
   ((C2_upload_before_save none sampleDraft "new.png" sampleUploadResp).2
      "http://h:9000/uploads/new.png" (by decide)).1,
   ((C2_upload_before_save none sampleDraft "new.png" sampleUploadResp).2
      "http://h:9000/uploads/new.png" (by decide)).2⟩

/- ### C3: no null/undefined secondary tag references -/

/-- C3 (counterexample): when the list response arrives as the envelope
`{success, data}` rather than a bare array, `ApiClient.getGames` returns
it unfiltered and the page's call-site normalization only unwraps it, so a
`null` entry inside `additionalTags` survives to the rendered list —
contradicting the claim that every listed game has null/undefined entries
removed before render. -/
theorem C3_counterexample :
    (unwrapList (ApiClient.getGames (ListResp.env true (some [sampleGameWire])))).any
      (fun g => (g.additionalTags.getD []).any JsStr.isNullish) = true := by
  decide

/-- C3 (amended): the create/update payload built by `handleSubmit` never
contains null/undefined entries in `additionalTags` (the spec's example
draft `["t1", null, "t2", undefined]` is submitted as exactly
`["t1","t2"]`), and games delivered by the list operation have
null/undefined entries removed whenever the wire response is a bare
collection — when it is the `{success, data}` envelope, the entries reach
the caller unfiltered. -/
theorem C3_additionalTags_amended :
    (∀ (fd : GameFormData) (u : String),
      (buildGameData fd u).additionalTags.all (fun tag => !tag.isNullish) = true) ∧
    (buildGameData sampleDraft "u.png").additionalTags =
      [JsStr.str "t1", JsStr.str "t2"] ∧
    (∀ games : List GameWire,
      (unwrapList (ApiClient.getGames (ListResp.arr games))).all
        (fun g => (g.additionalTags.getD []).all (fun tag => !tag.isNullish)) = true) := by
  refine ⟨fun fd u => ?_, by decide, fun games => ?_⟩
  · simp only [buildGameData, List.all_eq_true, List.mem_filter]
    exact fun tag h => h.2
  · simp only [ApiClient.getGames, unwrapList, List.all_eq_true, List.mem_map]
    rintro g ⟨g0, _, rfl⟩
    simp only [normalizeGame, Option.getD_some, List.all_eq_true, List.mem_filter]
    exact fun tag h => h.2

/- ### C4: 401 handling is global and unconditional -/

/-- C4: whatever resource operation issued the request, a 401 response
makes the shared interceptor clear the persisted `admin_token`, redirect
`window.location.href` to `/login`, and leave the session unauthenticated;
the interceptor is installed on the one shared axios instance every
`ApiClient` method uses, so no caller can opt out. -/
theorem C4_unauthorized_clears_session (op : Operation) (st : ClientState) :
    (performOperation op st 401).2.admin_token = none ∧
    (performOperation op st 401).2.locationHref = "/login" ∧
    isAuthenticatedState (performOperation op st 401).2 = false := by
  exact ⟨rfl, rfl, rfl⟩

/- ### C5: recomputeVisible is a pure order-preserving filter -/

/-- Two successive filters collapse to one filter by the conjunction. -/
theorem filter_then_filter {α : Type} (l : List α) (p q : α → Bool) :
    (l.filter p).filter q = l.filter (fun a => p a && q a) := by
  rw [List.filter_filter]
  exact List.filter_congr fun a _ => Bool.and_comm _ _

/-- Unfolding of `filterGames` into one filter by the combined
predicate. -/
theorem filterGames_eq_filter (games : List GameWire)
    (searchTerm selectedMainTag : String) :
    filterGames games searchTerm selectedMainTag =
      games.filter (gameMatches searchTerm selectedMainTag) := by
  by_cases hs : searchTerm = ""
  · subst hs
    by_cases hm : selectedMainTag = "all"
    · subst hm
      have hall : games.filter (gameMatches "" "all") = games := by
        rw [List.filter_eq_self]
        intro g _
        simp [gameMatches]
      simp [filterGames, hall]
    · simp only [filterGames, if_pos rfl, if_neg hm]
      apply List.filter_congr
      intro g _
      simp [gameMatches, beq_eq_false_iff_ne.mpr hm]
  · by_cases hm : selectedMainTag = "all"
    · subst hm
      simp only [filterGames, if_neg hs, if_pos rfl]
      apply List.filter_congr
      intro g _
      simp [gameMatches, beq_eq_false_iff_ne.mpr hs]
    · simp only [filterGames, if_neg hs, if_neg hm]
      rw [filter_then_filter]
      apply List.filter_congr
      intro g _
      simp [gameMatches, beq_eq_false_iff_ne.mpr hs, beq_eq_false_iff_ne.mpr hm]

/-- Unfolding of `filterUsers` into one filter by the combined
predicate. -/
theorem filterUsers_eq_filter (users : List UserRec)
    (searchTerm filterSubscription : String) :
    filterUsers users searchTerm filterSubscription =
      users.filter (userMatches searchTerm filterSubscription) := by
  by_cases hs : searchTerm = ""
  · subst hs
    by_cases hm : filterSubscription = "all"
    · subst hm
      have hall : users.filter (userMatches "" "all") = users := by
        rw [List.filter_eq_self]
        intro u _
        simp [userMatches]
      simp [filterUsers, hall]
    · simp only [filterUsers, if_pos rfl, if_neg hm]
      apply List.filter_congr
      intro u _
      simp [userMatches, beq_eq_false_iff_ne.mpr hm]
  · by_cases hm : filterSubscription = "all"
    · subst hm
      simp only [filterUsers, if_neg hs, if_pos rfl]
      apply List.filter_congr
      intro u _
      simp [userMatches, beq_eq_false_iff_ne.mpr hs]
    · simp only [filterUsers, if_neg hs, if_neg hm]
      rw [filter_then_filter]
      apply List.filter_congr
      intro u _
      simp [userMatches, beq_eq_false_iff_ne.mpr hs, beq_eq_false_iff_ne.mpr hm]

/-- C5: both instantiations of `recomputeVisible` — `filterGames` on the
games page and `filterUsers` on the users page — are pure functions of
the source collection and the filter criteria: each equals one `filter`
of the source collection by the combined case-insensitive-substring and
selector-equality predicate, its output is a sublist of the source (same
relative order), and a record is visible exactly when it is in the source
and matches the criteria. -/
theorem C5_recomputeVisible (games : List GameWire) (users : List UserRec)
    (searchTerm selectedMainTag userSearchTerm filterSubscription : String) :
    filterGames games searchTerm selectedMainTag =
      games.filter (gameMatches searchTerm selectedMainTag) ∧
    List.Sublist (filterGames games searchTerm selectedMainTag) games ∧
    (∀ g, g ∈ filterGames games searchTerm selectedMainTag ↔
      g ∈ games ∧ gameMatches searchTerm selectedMainTag g = true) ∧
    filterUsers users userSearchTerm filterSubscription =
      users.filter (userMatches userSearchTerm filterSubscription) ∧
    List.Sublist (filterUsers users userSearchTerm filterSubscription) users ∧
    (∀ u, u ∈ filterUsers users userSearchTerm filterSubscription ↔
      u ∈ users ∧ userMatches userSearchTerm filterSubscription u = true) := by
  refine ⟨filterGames_eq_filter games searchTerm selectedMainTag, ?_, ?_,
          filterUsers_eq_filter users userSearchTerm filterSubscription, ?_, ?_⟩
  · rw [filterGames_eq_filter]; exact List.filter_sublist games
  · intro g
    rw [filterGames_eq_filter]
    exact List.mem_filter
  · rw [filterUsers_eq_filter]; exact List.filter_sublist users
  · intro u
    rw [filterUsers_eq_filter]
    exact List.mem_filter

/- ### C6: list-response shape normalization -/

/-- C6 (counterexample): on the envelope response `{success: true, data:
[g]}` the wrapper `ApiClient.getGames` returns the envelope itself, not
the bare collection. -/
theorem C6_counterexample :
    ApiClient.getGames (ListResp.env true (some [sampleGameWire])) =
      ListResp.env true (some [sampleGameWire]) ∧
    (ApiClient.getGames (ListResp.env true (some [sampleGameWire]))).isArr = false := by
  exact ⟨rfl, rfl⟩

/-- C6 (amended): the wrapper returns the bare (id-normalized) collection
when the wire response is a bare collection, and returns the envelope
unchanged when it is `{success, data}`; in that case the call sites
complete the normalization with `Array.isArray(r) ? r : r.data || []`, so
the value consumed is in every case the bare collection — for games, tags
and users alike. -/
theorem C6_list_normalization_amended :
    (∀ games : List GameWire,
      ApiClient.getGames (ListResp.arr games) = ListResp.arr (games.map normalizeGame)) ∧
    (∀ (s : Bool) (d : Option (List GameWire)),
      ApiClient.getGames (ListResp.env s d) = ListResp.env s d) ∧
    (∀ games : List GameWire,
      unwrapList (ApiClient.getGames (ListResp.arr games)) = games.map normalizeGame) ∧
    (∀ (s : Bool) (d : Option (List GameWire)),
      unwrapList (ApiClient.getGames (ListResp.env s d)) = d.getD []) ∧
    (∀ tags : List TagWire,
      unwrapList (ApiClient.getAdditionalTags (ListResp.arr tags)) = tags.map normalizeTag) ∧
    (∀ (s : Bool) (d : Option (List TagWire)),
      unwrapList (ApiClient.getAdditionalTags (ListResp.env s d)) = d.getD []) ∧
    (∀ users : List UserWire,
      unwrapList (ApiClient.getUsers (ListResp.arr users)) = users.map normalizeUser) ∧
    (∀ (s : Bool) (d : Option (List UserWire)),
      unwrapList (ApiClient.getUsers (ListResp.env s d)) = d.getD []) := by
  exact ⟨fun _ => rfl, fun _ _ => rfl, fun _ => rfl, fun _ _ => rfl,
         fun _ => rfl, fun _ _ => rfl, fun _ => rfl, fun _ _ => rfl⟩

/- ### C7: create-tag requests carry name and owning-category -/

/-- C7: every create-tag request actually issued by the tag creation form
carries in its body both the (trimmed, non-empty) tag name and the
owning-category classifier selected in the form. -/
theorem C7_createTag_body (newTagName newTagBelongsTo : String)
    (body : CreateTagBody)
    (h : handleCreateTag newTagName newTagBelongsTo = some body) :
    body.name = jsTrim newTagName ∧ body.name ≠ "" ∧
    body.belongsTo = newTagBelongsTo := by
  unfold handleCreateTag at h
  by_cases ht : jsTrim newTagName = ""
  · rw [if_pos ht] at h
    exact absurd h (by simp)
  · rw [if_neg ht] at h
    have hb : body = createAdditionalTag (jsTrim newTagName) newTagBelongsTo :=
      (Option.some.inj h).symm
    subst hb
    exact ⟨rfl, ht, rfl⟩

/-- C7 (witness): submitting the form with name `" RPG "` and category
`"Software"` issues a request whose body is `{name: "RPG", belongsTo:
"Software"}`. -/
theorem C7_createTag_body_witness :
    handleCreateTag " RPG " "Software" = some (createAdditionalTag "RPG" "Software") ∧
    ((createAdditionalTag "RPG" "Software").name = jsTrim " RPG " ∧
     (createAdditionalTag "RPG" "Software").name ≠ "" ∧
     (createAdditionalTag "RPG" "Software").belongsTo = "Software") :=
  ⟨by decide,
   C7_createTag_body " RPG " "Software" (createAdditionalTag "RPG" "Software")
     (by decide)⟩

/- ### C8: tag pruning — never while editing, only when creating -/

/-- C8 (counterexample): with an empty available Tag collection (so the
selected id `"t1"` is certainly not present in it), creating a new record
leaves the invalid selection in place instead of removing it — the
`availableTags.length > 0` guard skips the cleanup. -/
theorem C8_counterexample :
    pruneSelectedTags [] none ["t1"] = ["t1"] ∧
    (([] : List TagWire).map (fun tag => tag._id)).contains (some "t1") = false := by
  exact ⟨rfl, rfl⟩

/-- C8 (amended): while editing an existing game the selection is never
pruned, whatever the available Tag collection holds; while creating a new
record, selected ids not present among the available tags' `_id`s are
removed — provided the available Tag collection is non-empty (when it is
empty, the guard leaves the draft untouched). -/
theorem C8_tag_pruning_amended (availableTags : List TagWire) (g : GameWire)
    (selectedTags : List String) :
    pruneSelectedTags availableTags (some g) selectedTags = selectedTags ∧
    (availableTags ≠ [] →
      pruneSelectedTags availableTags none selectedTags =
        selectedTags.filter
          (fun tagId => (availableTags.map (fun tag => tag._id)).contains (some tagId))) ∧
    pruneSelectedTags [] none selectedTags = selectedTags := by
  refine ⟨?_, fun hav => ?_, by simp [pruneSelectedTags]⟩
  · simp [pruneSelectedTags]
  · by_cases hsel : selectedTags = []
    · subst hsel
      simp [pruneSelectedTags]
    · have hcond : 0 < availableTags.length ∧ 0 < selectedTags.length :=
        ⟨List.length_pos.mpr hav, List.length_pos.mpr hsel⟩
      unfold pruneSelectedTags
      rw [if_pos hcond]
      by_cases hinv :
          (selectedTags.filter
            (fun tagId => (availableTags.map (fun tag => tag._id)).contains (some tagId))).length =
            selectedTags.length
      · rw [if_neg (fun hcontra => hcontra.2 hinv)]
        exact (List.filter_eq_self.mpr (List.filter_length_eq_length.mp hinv)).symm
      · rw [if_pos ⟨rfl, hinv⟩]

/-- C8 (witness): with one available tag of id `"t1"`, creating a record
with selections `["t1", "gone"]` prunes the stale id and keeps `"t1"`. -/
theorem C8_tag_pruning_amended_witness :
    ([sampleTagWire] : List TagWire) ≠ [] ∧
    pruneSelectedTags [sampleTagWire] none ["t1", "gone"] = ["t1"] :=
  ⟨by decide, by
    have h := (C8_tag_pruning_amended [sampleTagWire] sampleGameWire
      ["t1", "gone"]).2.1 (by decide)
    rw [h]
    decide⟩

/- ### C9: sequential login endpoint probing -/

/-- Probing a list that entirely fails tries every endpoint and yields no
data. -/
theorem tryEndpoints_all_fail {α : Type} (resp : String → Option α) :
    ∀ endpoints : List String, (∀ e ∈ endpoints, resp e = none) →
      tryEndpoints resp endpoints = (endpoints, none) := by
  intro endpoints
  induction endpoints with
  | nil => intro _; rfl
  | cons e rest ih =>
    intro h
    have he : resp e = none := h e (List.mem_cons_self e rest)
    have hrest := ih fun x hx => h x (List.mem_cons_of_mem e hx)
    simp [tryEndpoints, he, hrest]

/-- Conversely, when probing yields no data every endpoint failed. -/
theorem tryEndpoints_none_all_fail {α : Type} (resp : String → Option α) :
    ∀ endpoints : List String, (tryEndpoints resp endpoints).2 = none →
      ∀ e ∈ endpoints, resp e = none := by
  intro endpoints
  induction endpoints with
  | nil => intro _ e he; cases he
  | cons e rest ih =>
    intro h x hx
    cases hr : resp e with
    | some d => rw [tryEndpoints, hr] at h; cases h
    | none =>
      rw [tryEndpoints, hr] at h
      rcases List.mem_cons.mp hx with hx | hx
      · subst hx; exact hr
      · exact ih h x hx

/-- Probing stops at the first succeeding endpoint: everything before it
is tried, nothing after it is. -/
theorem tryEndpoints_first_success {α : Type} (resp : String → Option α)
    (d : α) (e : String) (post : List String) (he : resp e = some d) :
    ∀ pre : List String, (∀ x ∈ pre, resp x = none) →
      tryEndpoints resp (pre ++ e :: post) = (pre ++ [e], some d) := by
  intro pre
  induction pre with
  | nil => intro _; simp [tryEndpoints, he]
  | cons x rest ih =>
    intro h
    have hx : resp x = none := h x (List.mem_cons_self x rest)
    have hrest := ih fun y hy => h y (List.mem_cons_of_mem x hy)
    simp [tryEndpoints, hx, hrest]

/-- C9: `ApiClient.login` probes exactly the five hard-coded candidate
endpoints in order; it returns the data of the first candidate that
succeeds, having tried only the candidates up to and including it; and it
throws (yields no data) precisely when all five candidates fail. -/
theorem C9_login_candidates {α : Type} (resp : String → Option α) :
    loginEndpoints.length = 5 ∧
    ((ApiClient.login resp).2 = none ↔ ∀ e ∈ loginEndpoints, resp e = none) ∧
    (∀ (pre : List String) (e : String) (post : List String) (d : α),
      loginEndpoints = pre ++ e :: post →
      (∀ x ∈ pre, resp x = none) → resp e = some d →
      ApiClient.login resp = (pre ++ [e], some d)) := by
  refine ⟨rfl, ⟨?_, ?_⟩, ?_⟩
  · exact fun h => tryEndpoints_none_all_fail resp loginEndpoints h
  · intro h
    rw [ApiClient.login, tryEndpoints_all_fail resp loginEndpoints h]
  · intro pre e post d hsplit hpre he
    rw [ApiClient.login, hsplit]
    exact tryEndpoints_first_success resp d e post he pre hpre

/-- C9 (witness): under an oracle where the first two candidates fail and
the third succeeds with data `7`, login tries exactly the first three
candidates, in order, and returns `7`. -/
theorem C9_login_candidates_witness :
    (loginEndpoints =
       ["/admin/auth/login", "/admin/login"] ++
         "/auth/login" :: ["/adminAuth/login", "/userAuth/login"] ∧
     (∀ x ∈ ["/admin/auth/login", "/admin/login"], sampleLoginOracle x = none) ∧
     sampleLoginOracle "/auth/login" = some 7) ∧
    ApiClient.login sampleLoginOracle =
      (["/admin/auth/login", "/admin/login", "/auth/login"], some 7) :=
  ⟨⟨by decide, by decide, by decide⟩, by
    have h := (C9_login_candidates sampleLoginOracle).2.2
      ["/admin/auth/login", "/admin/login"] "/auth/login"
      ["/adminAuth/login", "/userAuth/login"] 7 (by decide) (by decide) (by decide)
    rw [h]
    decide⟩
